import Mathlib

/-!
Shallow embedding of the real-time event coordination core of the
mtchat service: webhook retry/signing, the notification debounce
pipeline, the WebSocket connection registry and fan-out, and the
presence service.  Each definition mirrors one Rust function of the
repository (file and function named in its doc comment).
-/

namespace Mtchat

/-- User / dialog / message identifiers (Rust `Uuid`), modelled as `Nat`. -/
abbrev Uuid := Nat

/-! ## Webhook configuration and retry (src/webhooks/sender.rs) -/

/-- Mirrors `WebhookConfig` in src/webhooks/sender.rs. -/
structure WebhookConfig where
  url : String
  secret : String
  max_retries : Nat
  retry_delay_ms : Nat
  timeout_secs : Nat
  deriving Repr, DecidableEq

/-- Mirrors `WebhookConfig::new`: defaults `max_retries = 3`,
`retry_delay_ms = 1000`, `timeout_secs = 10`. -/
def WebhookConfig.new (url secret : String) : WebhookConfig :=
  { url := url, secret := secret, max_retries := 3, retry_delay_ms := 1000,
    timeout_secs := 10 }

/-- Outcome of a single HTTP POST attempt: a status code, or a network
failure (reqwest `Err`). -/
inductive HttpResp where
  | status (code : Nat)
  | netErr
  deriving Repr, DecidableEq

/-- reqwest `StatusCode::is_success` (2xx). -/
def isSuccess (c : Nat) : Bool := 200 ≤ c && c ≤ 299

/-- reqwest `StatusCode::is_client_error` (4xx). -/
def isClientError (c : Nat) : Bool := 400 ≤ c && c ≤ 499

/-- One pass of the `for attempt in 0..=config.max_retries` loop of
`send_with_retry` (src/webhooks/sender.rs).  `respond attempt` is the
destination's answer to the HTTP attempt number `attempt`; `remaining`
is the number of loop iterations left; `delay` is the current value of
the mutable `delay` variable.  Returns the result, the number of HTTP
attempts performed, and the list of sleep delays (ms) taken before
attempts, in order.  The code sleeps only when `attempt > 0`, and
doubles `delay` right after sleeping. -/
def retryGo (respond : Nat → HttpResp) :
    Nat → Nat → Nat → (Except Unit Unit × Nat × List Nat)
  | _, 0, _ => (.error (), 0, [])
  | attempt, r + 1, delay =>
    let sleeps : List Nat := if attempt > 0 then [delay] else []
    let nextDelay := if attempt > 0 then delay * 2 else delay
    match respond attempt with
    | .status c =>
      if isSuccess c then (.ok (), 1, sleeps)
      else if isClientError c then (.error (), 1, sleeps)
      else
        match r with
        | 0 => (.error (), 1, sleeps)
        | r' + 1 =>
          let rest := retryGo respond (attempt + 1) (r' + 1) nextDelay
          (rest.1, rest.2.1 + 1, sleeps ++ rest.2.2)
    | .netErr =>
      match r with
      | 0 => (.error (), 1, sleeps)
      | r' + 1 =>
        let rest := retryGo respond (attempt + 1) (r' + 1) nextDelay
        (rest.1, rest.2.1 + 1, sleeps ++ rest.2.2)

/-- Mirrors `send_with_retry` (src/webhooks/sender.rs): the loop runs
attempts `0..=max_retries` with initial delay `retry_delay_ms`. -/
def send_with_retry (respond : Nat → HttpResp) (config : WebhookConfig) :
    Except Unit Unit × Nat × List Nat :=
  retryGo respond 0 (config.max_retries + 1) config.retry_delay_ms

/-- A destination that answers 503 on the first three attempts and 200
afterwards. -/
def respond503x3 : Nat → HttpResp :=
  fun a => if a < 3 then .status 503 else .status 200

/-- A destination that always answers 404. -/
def respond404 : Nat → HttpResp := fun _ => .status 404

/-! ## External cache (Redis), as seen through the fred client

A connection is modelled by its key-value entries plus a reachability
flag; every operation fails (`Except.error`) when the connection is
unreachable, mirroring a fred `Error`.  TTLs are elided: expiry is not
needed by any claim about the debounce pipeline. -/

/-- State of the external key-value cache connection. -/
structure RedisConn where
  reachable : Bool
  entries : List (String × String)
  deriving Repr, DecidableEq

/-- Value stored under a key (first matching entry). -/
def lookupEntry (entries : List (String × String)) (k : String) : Option String :=
  (entries.find? (fun p => p.1 == k)).map (·.2)

/-- Remove every entry with the given key (Redis `DEL`). -/
def delEntry (entries : List (String × String)) (k : String) :
    List (String × String) :=
  entries.filter (fun p => !(p.1 == k))

/-- Insert a key, replacing any previous entry (Redis `SET`). -/
def setEntry (entries : List (String × String)) (k v : String) :
    List (String × String) :=
  (k, v) :: delEntry entries k

/-- `redis.get(key)`: the stored value, or an error if unreachable. -/
def RedisConn.get (c : RedisConn) (k : String) : Except Unit (Option String) :=
  if c.reachable then .ok (lookupEntry c.entries k) else .error ()

/-- `redis.set(key, value, ttl, ...)` (TTL elided). -/
def RedisConn.set (c : RedisConn) (k v : String) : Except Unit RedisConn :=
  if c.reachable then .ok { c with entries := setEntry c.entries k v }
  else .error ()

/-- `redis.del(key)`. -/
def RedisConn.del (c : RedisConn) (k : String) : Except Unit RedisConn :=
  if c.reachable then .ok { c with entries := delEntry c.entries k }
  else .error ()

/-! ## Notification jobs and debounce (src/jobs) -/

/-- Mirrors `NotificationJob` (src/jobs/types.rs). -/
structure NotificationJob where
  dialog_id : Uuid
  recipient_id : Uuid
  message_id : Uuid
  sender_id : Uuid
  job_id : String
  deriving Repr, DecidableEq

/-- Mirrors `NotificationJob::debounce_key`:
`format!("{}:{}", self.dialog_id, self.recipient_id)`. -/
def NotificationJob.debounce_key (j : NotificationJob) : String :=
  toString j.dialog_id ++ ":" ++ toString j.recipient_id

/-- Mirrors `NOTIFICATION_DEBOUNCE_PREFIX` (src/jobs/middleware/debounce.rs). -/
def notificationDebouncePfx : String := "mtchat:debounce:notifications"

/-- Mirrors `is_job_current` (src/jobs/middleware/debounce.rs): reads
the debounce record `pfx:debounce_key`; on a cache error it proceeds
(`true`); a stored id differing from `job_id` means superseded
(`false`); a matching or absent record means current (`true`). -/
def is_job_current (c : RedisConn) (pfx debounce_key job_id : String) : Bool :=
  let redis_key := pfx ++ ":" ++ debounce_key
  match c.get redis_key with
  | .error _ => true
  | .ok stored_job_id =>
    match stored_job_id with
    | some stored_id => if stored_id ≠ job_id then false else true
    | none => true

/-- Mirrors `cleanup_debounce_key` (src/jobs/middleware/debounce.rs):
deletes the record; a deletion error is logged and ignored. -/
def cleanup_debounce_key (c : RedisConn) (pfx debounce_key : String) : RedisConn :=
  let redis_key := pfx ++ ":" ++ debounce_key
  match c.del redis_key with
  | .ok c' => c'
  | .error _ => c

/-- Cache effect of `JobProducer::enqueue_notification`
(src/jobs/producer.rs): write the debounce record
`mtchat:debounce:notifications:<debounce_key> → job_id` (TTL elided);
the subsequent delayed scheduling of the job itself is represented by
the caller holding the job value. -/
def enqueue_notification (c : RedisConn) (job : NotificationJob) :
    Except Unit RedisConn :=
  c.set (notificationDebouncePfx ++ ":" ++ job.debounce_key) job.job_id

/-! ## Storage view used by the notification handler (src/jobs/handlers.rs) -/

/-- The fields of `DialogParticipant` (src/domain/participant.rs) read
by `handle_notification`; the remaining columns are not consulted. -/
structure DialogParticipant where
  notifications_enabled : Bool
  unread_count : Int
  deriving Repr, DecidableEq

/-- The fields of `Dialog` (src/domain/dialog.rs) used by webhook
payload construction. -/
structure Dialog where
  id : Uuid
  object_id : Uuid
  object_type : String
  deriving Repr, DecidableEq

/-- The fields of `Message` (src/domain/message.rs) used by webhook
payload construction; timestamps are modelled as `Nat`. -/
structure Message where
  id : Uuid
  sender_id : Option Uuid
  content : String
  reply_to_id : Option Uuid
  sent_at : Nat
  message_type : String
  deriving Repr, DecidableEq

/-- Storage lookups consumed by the job handler: `participants.find`,
`dialogs.find_by_id`, `messages.find_by_id` (src/repositories); each
either errors (database unreachable) or returns an optional row. -/
structure JobStorage where
  participants_find : Uuid → Uuid → Except Unit (Option DialogParticipant)
  dialogs_find_by_id : Uuid → Except Unit (Option Dialog)
  messages_find_by_id : Uuid → Except Unit (Option Message)

/-! ## Webhook events (src/webhooks/events.rs) -/

/-- Mirrors `WebhookEventType`. -/
inductive WebhookEventType where
  | messageNew
  | participantJoined
  | participantLeft
  | notificationPending
  deriving Repr, DecidableEq

/-- Mirrors `WebhookEventType::as_str` (the dotted tags). -/
def WebhookEventType.as_str : WebhookEventType → String
  | .messageNew => "message.new"
  | .participantJoined => "participant.joined"
  | .participantLeft => "participant.left"
  | .notificationPending => "notification.pending"

/-- Mirrors `MessageData` (src/webhooks/events.rs). -/
structure MessageData where
  id : Uuid
  sender_id : Option Uuid
  content : String
  reply_to : Option Uuid
  created_at : Nat
  message_type : String
  deriving Repr, DecidableEq

/-- The `MessageData` built from a `Message` inside the
`WebhookEvent` constructors. -/
def messageData (m : Message) : MessageData :=
  { id := m.id, sender_id := m.sender_id, content := m.content,
    reply_to := m.reply_to_id, created_at := m.sent_at,
    message_type := m.message_type }

/-- Mirrors `NotificationPendingPayload`. -/
structure NotificationPendingPayload where
  dialog_id : Uuid
  object_id : Uuid
  object_type : String
  recipient_id : Uuid
  message : MessageData
  deriving Repr, DecidableEq

/-- Mirrors `MessageNewPayload`. -/
structure MessageNewPayload where
  dialog_id : Uuid
  object_id : Uuid
  object_type : String
  message : MessageData
  deriving Repr, DecidableEq

/-- Mirrors `ParticipantPayload` (participant.joined). -/
structure ParticipantPayload where
  dialog_id : Uuid
  object_id : Uuid
  object_type : String
  user_id : Uuid
  joined_as : String
  joined_at : Nat
  deriving Repr, DecidableEq

/-- Mirrors `ParticipantLeftPayload`. -/
structure ParticipantLeftPayload where
  dialog_id : Uuid
  object_id : Uuid
  object_type : String
  user_id : Uuid
  left_at : Nat
  deriving Repr, DecidableEq

/-- Mirrors `WebhookPayload`. -/
inductive WebhookPayload where
  | messageNew (p : MessageNewPayload)
  | participantJoined (p : ParticipantPayload)
  | participantLeft (p : ParticipantLeftPayload)
  | notificationPending (p : NotificationPendingPayload)
  deriving Repr, DecidableEq

/-- The type-and-payload content of `WebhookEvent::notification_pending`
(src/webhooks/events.rs); the event's freshly generated `id` and
`timestamp` are elided from the sent-effect record. -/
def notification_pending (d : Dialog) (m : Message) (recipient_id : Uuid) :
    WebhookEventType × WebhookPayload :=
  (.notificationPending,
   .notificationPending
     { dialog_id := d.id, object_id := d.object_id,
       object_type := d.object_type, recipient_id := recipient_id,
       message := messageData m })

/-! ## The notification job handler (src/jobs/handlers.rs) -/

/-- The post-debounce evaluation of `handle_notification`
(src/jobs/handlers.rs lines 51-128): load the participant, skip when the
recipient is gone, has notifications disabled, or has `unread_count`
zero; otherwise load dialog and message (skipping when either row is
gone) and send one `notification.pending` webhook.  The returned list
is the sequence of webhook events handed to `webhooks.send`; a storage
error is surfaced as a job failure. -/
def evaluate_notification (st : JobStorage) (job : NotificationJob) :
    Except Unit (List (WebhookEventType × WebhookPayload)) :=
  match st.participants_find job.dialog_id job.recipient_id with
  | .error _ => .error ()
  | .ok none => .ok []
  | .ok (some participant) =>
    if !participant.notifications_enabled then .ok []
    else if participant.unread_count == 0 then .ok []
    else
      match st.dialogs_find_by_id job.dialog_id with
      | .error _ => .error ()
      | .ok none => .ok []
      | .ok (some dialog) =>
        match st.messages_find_by_id job.message_id with
        | .error _ => .error ()
        | .ok none => .ok []
        | .ok (some message) =>
          .ok [notification_pending dialog message job.recipient_id]

/-- Mirrors `handle_notification` (src/jobs/handlers.rs): check the
debounce record; if superseded, exit with no side effects; otherwise
delete the record and evaluate.  Returns the resulting cache state and
the list of webhooks sent. -/
def handle_notification (c : RedisConn) (st : JobStorage) (job : NotificationJob) :
    Except Unit (RedisConn × List (WebhookEventType × WebhookPayload)) :=
  if !(is_job_current c notificationDebouncePfx job.debounce_key job.job_id) then
    .ok (c, [])
  else
    let c' := cleanup_debounce_key c notificationDebouncePfx job.debounce_key
    match evaluate_notification st job with
    | .error e => .error e
    | .ok sent => .ok (c', sent)

/-- A storage view with no rows at all (used as a concrete instance). -/
def emptyStorage : JobStorage :=
  { participants_find := fun _ _ => .ok none,
    dialogs_find_by_id := fun _ => .ok none,
    messages_find_by_id := fun _ => .ok none }

/-- Spec-side description of what the notification evaluation sends,
written from the spec's words (amended to account for a missing dialog
or message row): nothing when the recipient is gone, notifications are
disabled, or the unread counter is zero — and also nothing when the
dialog or message row no longer exists; otherwise exactly one
`notification.pending` event naming recipient, dialog and message. -/
def specNotificationSends (pOpt : Option DialogParticipant)
    (dOpt : Option Dialog) (mOpt : Option Message) (recipient : Uuid) :
    List (WebhookEventType × WebhookPayload) :=
  match pOpt with
  | none => []
  | some p =>
    if p.notifications_enabled = false then []
    else if p.unread_count = 0 then []
    else
      match dOpt, mOpt with
      | some d, some m => [notification_pending d m recipient]
      | _, _ => []

/-- A storage view whose participant row is present, enabled and unread,
but whose dialog and message rows are gone. -/
def storeNoDialog : JobStorage :=
  { participants_find := fun _ _ =>
      .ok (some { notifications_enabled := true, unread_count := 1 }),
    dialogs_find_by_id := fun _ => .ok none,
    messages_find_by_id := fun _ => .ok none }

/-- A sample dialog row. -/
def dialogW : Dialog := { id := 1, object_id := 9, object_type := "tender" }

/-- A sample message row. -/
def messageW : Message :=
  { id := 3, sender_id := some 4, content := "hi", reply_to_id := none,
    sent_at := 7, message_type := "user" }

/-- A storage view with participant (enabled, unread), dialog and
message rows all present. -/
def storeFull : JobStorage :=
  { participants_find := fun _ _ =>
      .ok (some { notifications_enabled := true, unread_count := 1 }),
    dialogs_find_by_id := fun _ => .ok (some dialogW),
    messages_find_by_id := fun _ => .ok (some messageW) }

/-! ## Connection registry and WebSocket fan-out (src/ws.rs)

The registry `Connections` is a map `user_id → ConnectionTx`; it is
modelled by its contents as an association list (`regGet`, `regInsert`,
`regRemove` mirror `HashMap::get` / `insert` / `remove`).  Each
`ConnectionTx` is the sender side of the per-connection bounded tokio
mpsc channel created in `handle_socket`
(`mpsc::channel::<String>(100)`). -/

/-- The per-connection bounded outbound channel, described by its
capacity, the queued (not yet forwarded) messages, and whether the
receiver half has been dropped. -/
structure ConnectionTx where
  capacity : Nat
  queue : List String
  closed : Bool
  deriving Repr, DecidableEq

/-- The capacity used by `handle_socket`: `mpsc::channel::<String>(100)`. -/
def connectionQueueCapacity : Nat := 100

/-- Outcome of `tx.send(msg).await` on a bounded tokio mpsc channel:
the message is enqueued when there is room; the call returns `Err`
(only) when the receiver is dropped; on a full open channel the call
suspends until capacity frees — it never drops the message. -/
inductive SendOutcome where
  | sent (c : ConnectionTx)
  | wouldWait
  | closedErr
  deriving Repr, DecidableEq

/-- Semantics of one `tx.send(msg).await`, with no concurrent consumer
progress. -/
def mpscSend (c : ConnectionTx) (msg : String) : SendOutcome :=
  if c.closed then .closedErr
  else if c.queue.length < c.capacity then
    .sent { c with queue := c.queue ++ [msg] }
  else .wouldWait

/-- `HashMap::get`. -/
def regGet {α : Type} (l : List (Uuid × α)) (u : Uuid) : Option α :=
  (l.find? (fun p => p.1 == u)).map (·.2)

/-- `HashMap::insert`: replaces the entry for the key if present,
otherwise adds one. -/
def regInsert {α : Type} : List (Uuid × α) → Uuid → α → List (Uuid × α)
  | [], u, a => [(u, a)]
  | (v, b) :: t, u, a =>
    if v = u then (u, a) :: t else (v, b) :: regInsert t u a

/-- `HashMap::remove`. -/
def regRemove {α : Type} (l : List (Uuid × α)) (u : Uuid) : List (Uuid × α) :=
  l.filter (fun p => !(p.1 == u))

/-- Replace the channel state held for user `u` (the in-place mutation
of a channel's internal queue, seen through the map). -/
def updateConn (conns : List (Uuid × ConnectionTx)) (u : Uuid)
    (tx' : ConnectionTx) : List (Uuid × ConnectionTx) :=
  conns.map (fun p => if p.1 = u then (p.1, tx') else p)

/-- The fan-out loop of `broadcast_message` (src/ws.rs lines 236-239,
and identically `broadcast_read` / `broadcast_message_edited` /
`broadcast_message_deleted` / `broadcast_participant_joined` /
`broadcast_participant_left`): `for (_, tx) in conns.iter() { let _ =
tx.send(json.clone()).await; }`.  A send error (closed channel) is
ignored; a send onto a full open channel suspends the whole loop
awaiting capacity, which this state-at-a-time model renders as `none`
(the fan-out does not complete without consumer progress). -/
def broadcastSendLoop (conns : List (Uuid × ConnectionTx)) (json : String) :
    Option (List (Uuid × ConnectionTx)) :=
  match conns with
  | [] => some []
  | (u, tx) :: rest =>
    match mpscSend tx json with
    | .sent tx' => (broadcastSendLoop rest json).map (fun r => (u, tx') :: r)
    | .closedErr => (broadcastSendLoop rest json).map (fun r => (u, tx) :: r)
    | .wouldWait => none

/-- Mirrors `broadcast_message` (src/ws.rs lines 217-240) with the JSON
serialization of the event abstracted into the wire string `json`. -/
def broadcast_message (conns : List (Uuid × ConnectionTx)) (json : String) :
    Option (List (Uuid × ConnectionTx)) :=
  broadcastSendLoop conns json

/-- The targeted fan-out loop (`broadcast_dialog_archived` /
`broadcast_dialog_unarchived`, and the recipient loop of
`broadcast_presence`): `for user_id in user_ids { if let Some(tx) =
conns.get(user_id) { let _ = tx.send(json.clone()).await; } }`. -/
def sendToUsers (conns : List (Uuid × ConnectionTx)) (ids : List Uuid)
    (json : String) : Option (List (Uuid × ConnectionTx)) :=
  match ids with
  | [] => some conns
  | u :: rest =>
    match regGet conns u with
    | none => sendToUsers conns rest json
    | some tx =>
      match mpscSend tx json with
      | .sent tx' => sendToUsers (updateConn conns u tx') rest json
      | .closedErr => sendToUsers conns rest json
      | .wouldWait => none

/-! ## Dialog membership store (src/repositories/participant_repo.rs) -/

/-- The `dialog_participants` table restricted to its key columns,
as a list of (user_id, dialog_id) rows. -/
abbrev MembershipRows := List (Uuid × Uuid)

/-- Mirrors `get_user_dialogs`: `SELECT dialog_id FROM
dialog_participants WHERE user_id = $1`. -/
def get_user_dialogs (memb : MembershipRows) (user_id : Uuid) : List Uuid :=
  (memb.filter (fun p => p.1 == user_id)).map (·.2)

/-- Mirrors `get_dialog_participants_user_ids`: `SELECT DISTINCT
user_id FROM dialog_participants WHERE dialog_id = ANY($1)` (empty
input short-circuits to `[]`). -/
def get_dialog_participants_user_ids (memb : MembershipRows)
    (dialog_ids : List Uuid) : List Uuid :=
  if dialog_ids = [] then []
  else ((memb.filter (fun p => p.2 ∈ dialog_ids)).map (·.1)).dedup

/-- The wire string for a `presence.update` event about `user_id`
(serde serialization abstracted to an injective encoding). -/
def presenceJson (user_id : Uuid) (is_online : Bool) : String :=
  "presence.update:" ++ toString user_id ++ ":" ++ toString is_online

/-- Mirrors `broadcast_presence` (src/ws.rs lines 171-215): collect the
user's dialogs, return early when there are none, collect the distinct
participants of those dialogs, and push the presence-update event to
every connected recipient other than the user (store errors elided:
the membership store is total here). -/
def broadcast_presence (memb : MembershipRows)
    (conns : List (Uuid × ConnectionTx)) (user_id : Uuid) (is_online : Bool) :
    Option (List (Uuid × ConnectionTx)) :=
  let dialog_ids := get_user_dialogs memb user_id
  if dialog_ids = [] then some conns
  else
    let recipient_ids := get_dialog_participants_user_ids memb dialog_ids
    sendToUsers conns (recipient_ids.filter (fun r => !(r == user_id)))
      (presenceJson user_id is_online)

/-! ## Registry lifecycle (src/ws.rs `handle_socket`) -/

/-- One registry operation: `conns.insert(user_id, tx)` on connection
open, `conns.remove(&user_id)` on disconnect.  Handles are labelled by
`Nat`. -/
inductive RegOp where
  | register (u : Uuid) (h : Nat)
  | deregister (u : Uuid)
  deriving Repr, DecidableEq

/-- Apply one registry operation. -/
def regStep (l : List (Uuid × Nat)) : RegOp → List (Uuid × Nat)
  | .register u h => regInsert l u h
  | .deregister u => regRemove l u

/-- Run a sequence of registry operations from the empty registry. -/
def runRegOps (ops : List RegOp) : List (Uuid × Nat) :=
  ops.foldl regStep []

/-- What the most recent operation touching a given user was. -/
inductive Touch where
  | untouched
  | reg (h : Nat)
  | dereg
  deriving Repr, DecidableEq

/-- Fold step computing the most recent touch of user `u`. -/
def touchStep (u : Uuid) (acc : Touch) : RegOp → Touch
  | .register v h => if v = u then .reg h else acc
  | .deregister v => if v = u then .dereg else acc

/-- The most recent register/deregister affecting user `u` in `ops`. -/
def lastTouch (ops : List RegOp) (u : Uuid) : Touch :=
  ops.foldl (touchStep u) .untouched

/-- The registry entry a touch dictates, given the entry before. -/
def applyTouch (t : Touch) (o : Option Nat) : Option Nat :=
  match t with
  | .untouched => o
  | .reg h => some h
  | .dereg => none

/-- Number of registry entries held for user `u`. -/
def countKey {α : Type} (l : List (Uuid × α)) (u : Uuid) : Nat :=
  (l.filter (fun p => p.1 == u)).length

/-! ## Presence service (src/services/presence.rs) -/

/-- Mirrors `PresenceService`: `redis: Option<Arc<Pool>>` (`None` is the
`noop` variant used when Redis is not configured). -/
structure PresenceService where
  redis : Option RedisConn

/-- The cache key `format!("online:{}", user_id)`. -/
def onlineKey (user_id : Uuid) : String := "online:" ++ toString user_id

/-- fred `mget`: the values for all keys at once, or an error when the
cache is unreachable. -/
def RedisConn.mget (c : RedisConn) (keys : List String) :
    Except Unit (List (Option String)) :=
  if c.reachable then .ok (keys.map (lookupEntry c.entries)) else .error ()

/-- Mirrors `PresenceService::get_online_users`: `[]` when not
configured or for an empty query; otherwise `mget` the `online:` keys
(the `?` operator propagates a cache error) and keep the ids whose key
is present. -/
def get_online_users (svc : PresenceService) (user_ids : List Uuid) :
    Except Unit (List Uuid) :=
  match svc.redis with
  | none => .ok []
  | some redis =>
    if user_ids = [] then .ok []
    else
      match redis.mget (user_ids.map onlineKey) with
      | .error e => .error e
      | .ok results =>
        .ok ((user_ids.zip results).filterMap (fun p => p.2.map (fun _ => p.1)))

/-- Mirrors `PresenceService::set_online`: `SET online:<id> "1" EX 60`
(TTL elided); the `?` propagates a cache error. -/
def set_online (svc : PresenceService) (user_id : Uuid) :
    Except Unit PresenceService :=
  match svc.redis with
  | none => .ok svc
  | some redis =>
    match redis.set (onlineKey user_id) "1" with
    | .error e => .error e
    | .ok r' => .ok ⟨some r'⟩

/-- Mirrors `PresenceService::refresh_online`: `EXPIRE` only adjusts
the TTL (elided), erroring when the cache is unreachable. -/
def refresh_online (svc : PresenceService) (user_id : Uuid) :
    Except Unit PresenceService :=
  match svc.redis with
  | none => .ok svc
  | some redis => if redis.reachable then .ok svc else .error ()

/-- Mirrors `PresenceService::set_offline`: `DEL online:<id>`; the `?`
propagates a cache error. -/
def set_offline (svc : PresenceService) (user_id : Uuid) :
    Except Unit PresenceService :=
  match svc.redis with
  | none => .ok svc
  | some redis =>
    match redis.del (onlineKey user_id) with
    | .error e => .error e
    | .ok r' => .ok ⟨some r'⟩

/-- Mirrors `PresenceService::is_online`. -/
def is_online (svc : PresenceService) (user_id : Uuid) : Except Unit Bool :=
  match svc.redis with
  | none => .ok false
  | some redis =>
    match redis.get (onlineKey user_id) with
    | .error e => .error e
    | .ok result => .ok result.isSome

/-- The degradation applied by every caller of `get_online_users` in
the codebase (`.unwrap_or_default()` in src/api/participants.rs and
src/main.rs): a cache error collapses to the empty list. -/
def get_online_users_or_default (svc : PresenceService)
    (user_ids : List Uuid) : List Uuid :=
  match get_online_users svc user_ids with
  | .ok l => l
  | .error _ => []

/-! ## Webhook envelope serialization (src/webhooks/events.rs)

`WebhookEvent` derives `Serialize` with `#[serde(rename = "type")]` on
`event_type`, and `WebhookEventType` derives it with
`#[serde(rename_all = "snake_case")]`, so the JSON body's `type` field
carries the snake_case variant name, while the `X-Webhook-Event` header
carries `as_str()`'s dotted tag. -/

/-- Mirrors the `WebhookEvent` envelope (timestamps as `Nat`). -/
structure WebhookEvent where
  id : Uuid
  event_type : WebhookEventType
  timestamp : Nat
  payload : WebhookPayload
  deriving Repr, DecidableEq

/-- The Rust identifier of each `WebhookEventType` variant. -/
def rustVariantName : WebhookEventType → String
  | .messageNew => "MessageNew"
  | .participantJoined => "ParticipantJoined"
  | .participantLeft => "ParticipantLeft"
  | .notificationPending => "NotificationPending"

/-- serde's `RenameRule::SnakeCase` on an identifier's characters:
lowercase every letter and insert an underscore before each uppercase
letter not at the start. -/
def snakeChars : Bool → List Char → List Char
  | _, [] => []
  | first, c :: cs =>
    if c.isUpper then
      (if first then [c.toLower] else ['_', c.toLower]) ++ snakeChars false cs
    else c :: snakeChars false cs

/-- serde's `rename_all = "snake_case"` applied to an identifier. -/
def snakeCaseRename (s : String) : String := ⟨snakeChars true s.data⟩

/-- The string serde writes into the serialized `type` field. -/
def serdeTypeTag (t : WebhookEventType) : String :=
  snakeCaseRename (rustVariantName t)

/-- The `X-Webhook-Event` header value attached by `send_with_retry`
(src/webhooks/sender.rs line 185): `event.event_type.as_str()`. -/
def webhookEventHeader (t : WebhookEventType) : String := t.as_str

/-- Replace every dot by an underscore. -/
def dotToUnderscore (s : String) : String :=
  ⟨s.data.map (fun c => if c = '.' then '_' else c)⟩

/-- Minimal JSON value tree. -/
inductive Json where
  | str (s : String)
  | num (n : Nat)
  | obj (fields : List (String × Json))

/-- Field lookup in a JSON object. -/
def jsonLookup (j : Json) (key : String) : Option Json :=
  match j with
  | .obj fields => (fields.find? (fun p => p.1 == key)).map (·.2)
  | _ => none

/-- Field names of a JSON object, in order. -/
def jsonFieldNames : Json → List String
  | .obj fields => fields.map (·.1)
  | _ => []

/-- A field omitted when `None` (`skip_serializing_if = "Option::is_none"`). -/
def optField (name : String) (v : Option Json) : List (String × Json) :=
  match v with
  | none => []
  | some j => [(name, j)]

/-- serde serialization of `MessageData`. -/
def messageDataJson (m : MessageData) : Json :=
  .obj ([("id", .str (toString m.id))]
    ++ optField "sender_id" (m.sender_id.map (fun u => .str (toString u)))
    ++ [("content", .str m.content)]
    ++ optField "reply_to" (m.reply_to.map (fun u => .str (toString u)))
    ++ [("created_at", .num m.created_at),
        ("message_type", .str m.message_type)])

/-- serde serialization of the `#[serde(untagged)]` payload. -/
def payloadJson : WebhookPayload → Json
  | .messageNew p =>
    .obj [("dialog_id", .str (toString p.dialog_id)),
          ("object_id", .str (toString p.object_id)),
          ("object_type", .str p.object_type),
          ("message", messageDataJson p.message)]
  | .participantJoined p =>
    .obj [("dialog_id", .str (toString p.dialog_id)),
          ("object_id", .str (toString p.object_id)),
          ("object_type", .str p.object_type),
          ("user_id", .str (toString p.user_id)),
          ("joined_as", .str p.joined_as),
          ("joined_at", .num p.joined_at)]
  | .participantLeft p =>
    .obj [("dialog_id", .str (toString p.dialog_id)),
          ("object_id", .str (toString p.object_id)),
          ("object_type", .str p.object_type),
          ("user_id", .str (toString p.user_id)),
          ("left_at", .num p.left_at)]
  | .notificationPending p =>
    .obj [("dialog_id", .str (toString p.dialog_id)),
          ("object_id", .str (toString p.object_id)),
          ("object_type", .str p.object_type),
          ("recipient_id", .str (toString p.recipient_id)),
          ("message", messageDataJson p.message)]

/-- serde serialization of the `WebhookEvent` envelope: fields in
declaration order, `event_type` renamed to `type` and rendered with the
snake_case rule. -/
def webhookEventJson (e : WebhookEvent) : Json :=
  .obj [("id", .str (toString e.id)),
        ("type", .str (serdeTypeTag e.event_type)),
        ("timestamp", .num e.timestamp),
        ("payload", payloadJson e.payload)]

/-- A concrete `message.new` event. -/
def sampleEvent : WebhookEvent :=
  { id := 42, event_type := .messageNew, timestamp := 5,
    payload := .messageNew
      { dialog_id := 1, object_id := 9, object_type := "tender",
        message :=
          { id := 3, sender_id := some 4, content := "hi", reply_to := none,
            created_at := 7, message_type := "user" } } }

/-! ## HMAC-SHA256 signing (src/webhooks/sender.rs)

`compute_signature` / `verify_signature` call the hmac/sha2 crates on
the UTF-8 bytes of secret and payload; here SHA-256 (FIPS 180-4) and
HMAC (RFC 2104) are implemented over byte lists (`List Nat`, each
element one byte), with 32-bit words as `Nat` reduced mod 2^32. -/

/-- Truncate to a 32-bit word. -/
def w32 (n : Nat) : Nat := n % 4294967296

/-- Right rotation of a 32-bit word. -/
def rotr (n x : Nat) : Nat := w32 ((x >>> n) ||| (x <<< (32 - n)))

/-- SHA-256 Σ0. -/
def bigSigma0 (x : Nat) : Nat := rotr 2 x ^^^ rotr 13 x ^^^ rotr 22 x

/-- SHA-256 Σ1. -/
def bigSigma1 (x : Nat) : Nat := rotr 6 x ^^^ rotr 11 x ^^^ rotr 25 x

/-- SHA-256 σ0. -/
def smallSigma0 (x : Nat) : Nat := rotr 7 x ^^^ rotr 18 x ^^^ (x >>> 3)

/-- SHA-256 σ1. -/
def smallSigma1 (x : Nat) : Nat := rotr 17 x ^^^ rotr 19 x ^^^ (x >>> 10)

/-- SHA-256 Ch. -/
def ch (x y z : Nat) : Nat := (x &&& y) ^^^ ((x ^^^ 4294967295) &&& z)

/-- SHA-256 Maj. -/
def maj (x y z : Nat) : Nat := (x &&& y) ^^^ (x &&& z) ^^^ (y &&& z)

/-- SHA-256 round constants. -/
def sha256K : List Nat :=
  [1116352408, 1899447441, 3049323471, 3921009573,
   961987163, 1508970993, 2453635748, 2870763221,
   3624381080, 310598401, 607225278, 1426881987,
   1925078388, 2162078206, 2614888103, 3248222580,
   3835390401, 4022224774, 264347078, 604807628,
   770255983, 1249150122, 1555081692, 1996064986,
   2554220882, 2821834349, 2952996808, 3210313671,
   3336571891, 3584528711, 113926993, 338241895,
   666307205, 773529912, 1294757372, 1396182291,
   1695183700, 1986661051, 2177026350, 2456956037,
   2730485921, 2820302411, 3259730800, 3345764771,
   3516065817, 3600352804, 4094571909, 275423344,
   430227734, 506948616, 659060556, 883997877,
   958139571, 1322822218, 1537002063, 1747873779,
   1955562222, 2024104815, 2227730452, 2361852424,
   2428436474, 2756734187, 3204031479, 3329325298]

/-- SHA-256 initial hash value. -/
def sha256H0 : List Nat :=
  [1779033703, 3144134277, 1013904242, 2773480762,
   1359893119, 2600822924, 528734635, 1541459225]

/-- Big-endian 8-byte encoding of the bit length `8 * L`. -/
def lenBytes (L : Nat) : List Nat :=
  (List.range 8).reverse.map (fun i => ((8 * L) >>> (8 * i)) % 256)

/-- SHA-256 padding for a message of `L` bytes. -/
def sha256Padding (L : Nat) : List Nat :=
  0x80 :: List.replicate ((119 - L % 64) % 64) 0 ++ lenBytes L

/-- Group bytes into big-endian 32-bit words. -/
def bytesToWords : List Nat → List Nat
  | b0 :: b1 :: b2 :: b3 :: rest =>
    (b0 <<< 24 ||| b1 <<< 16 ||| b2 <<< 8 ||| b3) :: bytesToWords rest
  | _ => []

/-- Split a word list into 16-word blocks (fuel-driven for structural
recursion; called with fuel at least the list length). -/
def chunk16F : Nat → List Nat → List (List Nat)
  | 0, _ => []
  | _, [] => []
  | fuel + 1, l => l.take 16 :: chunk16F fuel (l.drop 16)

/-- Extend the message schedule by `n` further words. -/
def schedGo : Nat → List Nat → List Nat
  | 0, acc => acc
  | n + 1, acc =>
    schedGo n (acc ++
      [w32 (smallSigma1 (acc.getD (acc.length - 2) 0)
        + acc.getD (acc.length - 7) 0
        + smallSigma0 (acc.getD (acc.length - 15) 0)
        + acc.getD (acc.length - 16) 0)])

/-- The 64-word message schedule of a 16-word block. -/
def schedule (ws : List Nat) : List Nat := schedGo 48 ws

/-- One SHA-256 compression round on the state [a,b,c,d,e,f,g,h]. -/
def roundStep (st : List Nat) (kw : Nat × Nat) : List Nat :=
  match st with
  | [a, b, c, d, e, f, g, h] =>
    let t1 := w32 (h + bigSigma1 e + ch e f g + kw.1 + kw.2)
    let t2 := w32 (bigSigma0 a + maj a b c)
    [w32 (t1 + t2), a, b, c, w32 (d + t1), e, f, g]
  | other => other

/-- SHA-256 compression of one 16-word block into the running hash. -/
def sha256Compress (h : List Nat) (block : List Nat) : List Nat :=
  let st := ((sha256K.zip (schedule block)).foldl roundStep h)
  List.zipWith (fun x y => w32 (x + y)) h st

/-- SHA-256 digest of a byte list, as 8 32-bit words. -/
def sha256Words (msg : List Nat) : List Nat :=
  let ws := bytesToWords (msg ++ sha256Padding msg.length)
  (chunk16F ws.length ws).foldl sha256Compress sha256H0

/-- Big-endian bytes of a 32-bit word list. -/
def wordsToBytes (ws : List Nat) : List Nat :=
  (ws.map (fun w => [(w >>> 24) % 256, (w >>> 16) % 256,
    (w >>> 8) % 256, w % 256])).flatten

/-- SHA-256 digest of a byte list, as 32 bytes. -/
def sha256 (msg : List Nat) : List Nat := wordsToBytes (sha256Words msg)

/-- HMAC-SHA256 (RFC 2104; block size 64, as the hmac crate uses for
`Hmac<Sha256>`). -/
def hmacSha256 (key msg : List Nat) : List Nat :=
  let k0 := if key.length > 64 then sha256 key else key
  let kpad := k0 ++ List.replicate (64 - k0.length) 0
  let ipadded := kpad.map (fun b => b ^^^ 0x36)
  let opadded := kpad.map (fun b => b ^^^ 0x5c)
  sha256 (opadded ++ sha256 (ipadded ++ msg))

/-- One lowercase hex digit (`hex::encode` is lowercase). -/
def hexDigit (n : Nat) : Nat := if n < 10 then 48 + n else 87 + n

/-- Lowercase hex encoding, as ASCII bytes. -/
def hexEncode (bs : List Nat) : List Nat :=
  (bs.map (fun b => [hexDigit (b >>> 4), hexDigit (b % 16)])).flatten

/-- The ASCII bytes of the `"sha256="` tag. -/
def sigTagBytes : List Nat := [115, 104, 97, 50, 53, 54, 61]

/-- Mirrors `compute_signature` (src/webhooks/sender.rs):
`format!("sha256={}", hex::encode(hmac(secret, payload)))`, on the
UTF-8 bytes of the strings. -/
def compute_signature (secret payload : List Nat) : List Nat :=
  sigTagBytes ++ hexEncode (hmacSha256 secret payload)

/-- Mirrors `constant_time_eq` (src/webhooks/sender.rs): length check,
then a fold of OR over byte XORs compared with 0. -/
def constant_time_eq (a b : List Nat) : Bool :=
  if a.length ≠ b.length then false
  else ((a.zip b).foldl (fun acc p => acc ||| (p.1 ^^^ p.2)) 0) == 0

/-- Mirrors `verify_signature` (src/webhooks/sender.rs): recompute the
expected signature and compare in constant time. -/
def verify_signature (secret payload signature : List Nat) : Bool :=
  constant_time_eq (compute_signature secret payload) signature

/-- The bytes of "my-webhook-secret". -/
def secretBytes : List Nat :=
  [109, 121, 45, 119, 101, 98, 104, 111, 111, 107, 45, 115, 101, 99,
   114, 101, 116]

/-- `secretBytes` with its last byte changed (`t` → `u`). -/
def secretTampered : List Nat :=
  [109, 121, 45, 119, 101, 98, 104, 111, 111, 107, 45, 115, 101, 99,
   114, 101, 117]

/-- The bytes of "abc". -/
def payloadBytes : List Nat := [97, 98, 99]

/-- `payloadBytes` with its last byte changed (`c` → `d`). -/
def payloadTampered : List Nat := [97, 98, 100]

end Mtchat

open Mtchat

/-- Looking up the key just written by `setEntry` yields the new value. -/
theorem lookupEntry_setEntry_self (es : List (String × String)) (k v : String) :
    lookupEntry (setEntry es k v) k = some v := by
  simp [lookupEntry, setEntry, List.find?]

/-- After `delEntry`, the key is gone. -/
theorem lookupEntry_delEntry (es : List (String × String)) (k : String) :
    lookupEntry (delEntry es k) k = none := by
  induction es with
  | nil => rfl
  | cons p t ih =>
    simp only [delEntry, List.filter_cons] at *
    by_cases h : p.1 == k
    · simp [h]
      exact ih
    · simp [lookupEntry, List.find?, h] at ih ⊢

/-- A job that reads an absent debounce record, or one holding its own
`job_id`, passes the currency check, deletes the record, and proceeds
to the evaluation. -/
theorem handle_notification_current (c : RedisConn) (st : JobStorage)
    (j : NotificationJob)
    (h : c.get (notificationDebouncePfx ++ ":" ++ j.debounce_key) = .ok none
       ∨ c.get (notificationDebouncePfx ++ ":" ++ j.debounce_key)
           = .ok (some j.job_id)) :
    handle_notification c st j
      = (evaluate_notification st j).map
          (fun sent =>
            (cleanup_debounce_key c notificationDebouncePfx j.debounce_key, sent)) := by
  have hcur : is_job_current c notificationDebouncePfx j.debounce_key j.job_id
      = true := by
    rcases h with h | h <;> simp [is_job_current, h]
  simp only [handle_notification, hcur, Bool.not_true, Bool.false_eq_true,
    if_false]
  cases hv : evaluate_notification st j <;> simp [Except.map]

/-- C2: with the default configuration (`max_retries = 3`, base delay
1000 ms), a destination answering 503 three times then 200 yields
success after exactly 4 HTTP attempts with the strictly increasing,
doubling backoff delays 1000, 2000, 4000 ms; a destination answering
404 yields a permanent failure after exactly 1 attempt with no retry
sleep. -/
theorem webhook_retry_503_then_success_and_404_no_retry :
    Mtchat.send_with_retry Mtchat.respond503x3 (Mtchat.WebhookConfig.new "u" "s")
      = (.ok (), 4, [1000, 2000, 4000])
    ∧ (1000 < 2000 ∧ 2000 < 4000)
    ∧ Mtchat.send_with_retry Mtchat.respond404 (Mtchat.WebhookConfig.new "u" "s")
      = (.error (), 1, []) := by
  refine ⟨rfl, by decide, rfl⟩

/-- C10: if reading the debounce record fails with a cache error when a
notification job becomes due, `is_job_current` returns `true` and the
job proceeds to the evaluation (fail-open): a due job is never skipped
because of a debounce-cache failure. -/
theorem debounce_cache_error_fail_open (c : RedisConn) (st : JobStorage)
    (job : NotificationJob) (h : c.reachable = false) :
    is_job_current c notificationDebouncePfx job.debounce_key job.job_id = true
    ∧ handle_notification c st job
      = (evaluate_notification st job).map (fun sent => (c, sent)) := by
  constructor
  · simp [is_job_current, RedisConn.get, h]
  · simp only [handle_notification, is_job_current, RedisConn.get,
      cleanup_debounce_key, RedisConn.del, h, Bool.false_eq_true, if_false,
      Bool.not_true]
    cases hv : evaluate_notification st job <;> simp [Except.map]

/-- Witness for `debounce_cache_error_fail_open` at a concrete
unreachable cache, empty storage and a concrete job. -/
theorem debounce_cache_error_fail_open_witness :
    is_job_current ⟨false, []⟩ notificationDebouncePfx
        (NotificationJob.mk 1 2 3 4 "j").debounce_key
        (NotificationJob.mk 1 2 3 4 "j").job_id = true
    ∧ handle_notification ⟨false, []⟩ emptyStorage (NotificationJob.mk 1 2 3 4 "j")
      = (evaluate_notification emptyStorage (NotificationJob.mk 1 2 3 4 "j")).map
          (fun sent => (⟨false, []⟩, sent)) :=
  debounce_cache_error_fail_open ⟨false, []⟩ emptyStorage
    (NotificationJob.mk 1 2 3 4 "j") rfl

/-- C1: if J1 and then J2 are enqueued for the same (dialog, recipient)
debounce key before J1 runs (so the cache record holds J2's job id when
J1 becomes due), then J1 exits without side effects and only J2 deletes
the record and runs the evaluation; and any job finding the record
absent or holding its own job id proceeds, deleting the record before
evaluating. -/
theorem debounce_supersede_only_latest_runs
    (c0 c1 c2 : RedisConn) (st : JobStorage) (j1 j2 : NotificationJob)
    (hdlg : j1.dialog_id = j2.dialog_id)
    (hrcpt : j1.recipient_id = j2.recipient_id)
    (hid : j1.job_id ≠ j2.job_id)
    (h1 : enqueue_notification c0 j1 = .ok c1)
    (h2 : enqueue_notification c1 j2 = .ok c2) :
    handle_notification c2 st j1 = .ok (c2, [])
    ∧ handle_notification c2 st j2
      = (evaluate_notification st j2).map
          (fun sent =>
            (cleanup_debounce_key c2 notificationDebouncePfx j2.debounce_key, sent))
    ∧ (cleanup_debounce_key c2 notificationDebouncePfx j2.debounce_key).get
        (notificationDebouncePfx ++ ":" ++ j2.debounce_key) = .ok none
    ∧ (∀ (c : RedisConn) (j : NotificationJob),
        c.get (notificationDebouncePfx ++ ":" ++ j.debounce_key) = .ok none
          ∨ c.get (notificationDebouncePfx ++ ":" ++ j.debounce_key)
              = .ok (some j.job_id) →
        handle_notification c st j
          = (evaluate_notification st j).map
              (fun sent =>
                (cleanup_debounce_key c notificationDebouncePfx j.debounce_key,
                 sent))) := by
  have hkey : j1.debounce_key = j2.debounce_key := by
    unfold NotificationJob.debounce_key
    rw [hdlg, hrcpt]
  unfold enqueue_notification RedisConn.set at h1 h2
  have hr0 : c0.reachable = true := by
    by_contra hc
    simp only [Bool.not_eq_true] at hc
    simp [hc] at h1
  rw [if_pos hr0] at h1
  injection h1 with h1'
  subst h1'
  simp only [hr0, if_true] at h2
  injection h2 with h2'
  subst h2'
  have hget :
      lookupEntry
        (setEntry
          (setEntry c0.entries (notificationDebouncePfx ++ ":" ++ j1.debounce_key)
            j1.job_id)
          (notificationDebouncePfx ++ ":" ++ j2.debounce_key) j2.job_id)
        (notificationDebouncePfx ++ ":" ++ j2.debounce_key) = some j2.job_id :=
    lookupEntry_setEntry_self _ _ _
  refine ⟨?_, ?_, ?_, fun c j h => handle_notification_current c st j h⟩
  · rw [hkey] at hget
    simp only [handle_notification, is_job_current, RedisConn.get, hkey]
    simp [hget, Ne.symm hid]
  · refine handle_notification_current _ st j2 (Or.inr ?_)
    simp [RedisConn.get, hr0, hget]
  · simp [cleanup_debounce_key, RedisConn.del, RedisConn.get, hr0,
      lookupEntry_delEntry]

/-- Witness for `debounce_supersede_only_latest_runs` at concrete jobs
J1 = (1,2,3,4,"a") and J2 = (1,2,5,4,"b") enqueued into an empty cache. -/
theorem debounce_supersede_only_latest_runs_witness :
    handle_notification ⟨true, [("mtchat:debounce:notifications:1:2", "b")]⟩
        emptyStorage (NotificationJob.mk 1 2 3 4 "a")
      = .ok (⟨true, [("mtchat:debounce:notifications:1:2", "b")]⟩, [])
    ∧ handle_notification ⟨true, [("mtchat:debounce:notifications:1:2", "b")]⟩
        emptyStorage (NotificationJob.mk 1 2 5 4 "b")
      = (evaluate_notification emptyStorage (NotificationJob.mk 1 2 5 4 "b")).map
          (fun sent =>
            (cleanup_debounce_key
               ⟨true, [("mtchat:debounce:notifications:1:2", "b")]⟩
               notificationDebouncePfx
               (NotificationJob.mk 1 2 5 4 "b").debounce_key,
             sent))
    ∧ (cleanup_debounce_key ⟨true, [("mtchat:debounce:notifications:1:2", "b")]⟩
         notificationDebouncePfx
         (NotificationJob.mk 1 2 5 4 "b").debounce_key).get
        (notificationDebouncePfx ++ ":"
          ++ (NotificationJob.mk 1 2 5 4 "b").debounce_key)
      = .ok none := by
  have h := debounce_supersede_only_latest_runs ⟨true, []⟩
    ⟨true, [("mtchat:debounce:notifications:1:2", "a")]⟩
    ⟨true, [("mtchat:debounce:notifications:1:2", "b")]⟩
    emptyStorage (NotificationJob.mk 1 2 3 4 "a") (NotificationJob.mk 1 2 5 4 "b")
    rfl rfl (by decide) rfl rfl
  exact ⟨h.1, h.2.1, h.2.2.1⟩

/-- C3 (amended): a job that passes the debounce check and whose
storage lookups succeed sends nothing when the recipient is gone,
notifications are disabled, or the unread counter is zero — and also
when the dialog or message row no longer exists; otherwise it sends
exactly one `notification.pending` event naming recipient, dialog and
message (the case split is `specNotificationSends`). -/
theorem notification_eval_noop_conditions (c : RedisConn) (st : JobStorage)
    (job : NotificationJob) (pOpt : Option DialogParticipant)
    (dOpt : Option Dialog) (mOpt : Option Message)
    (hdeb : c.get (notificationDebouncePfx ++ ":" ++ job.debounce_key) = .ok none
       ∨ c.get (notificationDebouncePfx ++ ":" ++ job.debounce_key)
           = .ok (some job.job_id))
    (hp : st.participants_find job.dialog_id job.recipient_id = .ok pOpt)
    (hd : st.dialogs_find_by_id job.dialog_id = .ok dOpt)
    (hm : st.messages_find_by_id job.message_id = .ok mOpt) :
    handle_notification c st job
      = .ok (cleanup_debounce_key c notificationDebouncePfx job.debounce_key,
             specNotificationSends pOpt dOpt mOpt job.recipient_id) := by
  rw [handle_notification_current c st job hdeb]
  simp only [evaluate_notification, hp]
  cases pOpt with
  | none => simp [specNotificationSends, Except.map]
  | some p =>
    by_cases hen : p.notifications_enabled
    · by_cases hz : p.unread_count = 0
      · simp [specNotificationSends, hen, hz, Except.map]
      · simp only [hd]
        cases dOpt with
        | none => simp [specNotificationSends, hen, hz, Except.map]
        | some d =>
          simp only [hm]
          cases mOpt with
          | none => simp [specNotificationSends, hen, hz, Except.map]
          | some m => simp [specNotificationSends, hen, hz, Except.map]
    · simp [specNotificationSends, hen, Except.map]

/-- Witness for `notification_eval_noop_conditions`: with participant
present (enabled, unread 1) and dialog and message rows present, the
job sends exactly the one `notification.pending` event. -/
theorem notification_eval_noop_conditions_witness :
    handle_notification ⟨true, []⟩ storeFull (NotificationJob.mk 1 2 3 4 "w")
      = .ok (cleanup_debounce_key ⟨true, []⟩ notificationDebouncePfx
               (NotificationJob.mk 1 2 3 4 "w").debounce_key,
             specNotificationSends
               (some { notifications_enabled := true, unread_count := 1 })
               (some dialogW) (some messageW)
               (NotificationJob.mk 1 2 3 4 "w").recipient_id)
    ∧ specNotificationSends
        (some { notifications_enabled := true, unread_count := 1 })
        (some dialogW) (some messageW) 2
      = [notification_pending dialogW messageW 2] :=
  ⟨notification_eval_noop_conditions ⟨true, []⟩ storeFull
      (NotificationJob.mk 1 2 3 4 "w")
      (some { notifications_enabled := true, unread_count := 1 })
      (some dialogW) (some messageW) (Or.inl rfl) rfl rfl rfl,
   rfl⟩

/-- Counterexample to C3 as stated: in `storeNoDialog` the recipient is
still a participant with notifications enabled and `unread_count = 1`
(none of the three stated no-op conditions holds) and the debounce check
passes, yet the job sends nothing, because the dialog row is gone —
whereas the claim demands exactly one `notification.pending` event. -/
theorem notification_eval_missing_dialog_counterexample :
    storeNoDialog.participants_find 1 2
      = .ok (some { notifications_enabled := true, unread_count := 1 })
    ∧ is_job_current ⟨true, []⟩ notificationDebouncePfx
        (NotificationJob.mk 1 2 3 4 "x").debounce_key
        (NotificationJob.mk 1 2 3 4 "x").job_id = true
    ∧ handle_notification ⟨true, []⟩ storeNoDialog (NotificationJob.mk 1 2 3 4 "x")
      = .ok (cleanup_debounce_key ⟨true, []⟩ notificationDebouncePfx
               (NotificationJob.mk 1 2 3 4 "x").debounce_key, [])
    ∧ ¬ ∃ ev,
        handle_notification ⟨true, []⟩ storeNoDialog (NotificationJob.mk 1 2 3 4 "x")
          = .ok (cleanup_debounce_key ⟨true, []⟩ notificationDebouncePfx
                   (NotificationJob.mk 1 2 3 4 "x").debounce_key, [ev]) := by
  refine ⟨rfl, rfl, rfl, ?_⟩
  rintro ⟨ev, h⟩
  have hc : handle_notification ⟨true, []⟩ storeNoDialog
      (NotificationJob.mk 1 2 3 4 "x")
      = .ok (cleanup_debounce_key ⟨true, []⟩ notificationDebouncePfx
               (NotificationJob.mk 1 2 3 4 "x").debounce_key, []) := rfl
  rw [hc] at h
  simp at h

/-- Cons unfolding for `regGet`. -/
theorem regGet_cons {α : Type} (v : Uuid) (b : α) (t : List (Uuid × α))
    (u : Uuid) :
    regGet ((v, b) :: t) u = if v = u then some b else regGet t u := by
  by_cases h : v = u
  · simp [regGet, List.find?, h]
  · have hb : (v == u) = false := by simp [h]
    simp [regGet, List.find?, hb, h]

/-- Cons unfolding for `countKey`. -/
theorem countKey_cons {α : Type} (v : Uuid) (b : α) (t : List (Uuid × α))
    (u : Uuid) :
    countKey ((v, b) :: t) u = (if v = u then 1 else 0) + countKey t u := by
  by_cases h : v = u <;> simp [countKey, List.filter_cons, h, Nat.add_comm]

/-- Cons unfolding for `regRemove`. -/
theorem regRemove_cons {α : Type} (v : Uuid) (b : α) (t : List (Uuid × α))
    (u : Uuid) :
    regRemove ((v, b) :: t) u
      = if v = u then regRemove t u else (v, b) :: regRemove t u := by
  by_cases h : v = u <;> simp [regRemove, List.filter_cons, h]

/-- `regInsert` stores the new value under the key. -/
theorem regGet_regInsert_self {α : Type} (l : List (Uuid × α)) (u : Uuid)
    (a : α) : regGet (regInsert l u a) u = some a := by
  induction l with
  | nil => simp [regInsert, regGet_cons]
  | cons p t ih =>
    rcases p with ⟨v, b⟩
    by_cases h : v = u
    · simp [regInsert, h, regGet_cons]
    · simp [regInsert, h, regGet_cons, ih]

/-- `regInsert` for a different key leaves a lookup unchanged. -/
theorem regGet_regInsert_ne {α : Type} (l : List (Uuid × α)) (u v : Uuid)
    (a : α) (h : v ≠ u) : regGet (regInsert l v a) u = regGet l u := by
  induction l with
  | nil => simp [regInsert, regGet_cons, h, regGet]
  | cons p t ih =>
    rcases p with ⟨w, b⟩
    by_cases hw : w = v
    · subst hw
      simp [regInsert, regGet_cons, h]
    · simp [regInsert, hw, regGet_cons, ih]

/-- `regRemove` deletes the key. -/
theorem regGet_regRemove_self {α : Type} (l : List (Uuid × α)) (u : Uuid) :
    regGet (regRemove l u) u = none := by
  induction l with
  | nil => rfl
  | cons p t ih =>
    rcases p with ⟨v, b⟩
    by_cases h : v = u
    · simp [regRemove_cons, h, ih]
    · simp [regRemove_cons, h, regGet_cons, ih]

/-- `regRemove` of a different key leaves a lookup unchanged. -/
theorem regGet_regRemove_ne {α : Type} (l : List (Uuid × α)) (u v : Uuid)
    (h : v ≠ u) : regGet (regRemove l v) u = regGet l u := by
  induction l with
  | nil => rfl
  | cons p t ih =>
    rcases p with ⟨w, b⟩
    by_cases hw : w = v
    · subst hw
      simp [regRemove_cons, regGet_cons, h, ih]
    · simp [regRemove_cons, hw, regGet_cons, ih]

/-- `touchStep` commutes with `applyTouch`. -/
theorem touchStep_apply (u : Uuid) (acc : Touch) (op : RegOp) (o : Option Nat) :
    applyTouch (touchStep u acc op) o
      = applyTouch (touchStep u .untouched op) (applyTouch acc o) := by
  cases op with
  | register v h => by_cases hv : v = u <;> simp [touchStep, applyTouch, hv]
  | deregister v => by_cases hv : v = u <;> simp [touchStep, applyTouch, hv]

/-- Folding `touchStep` factors through `applyTouch`. -/
theorem applyTouch_foldl (t : List RegOp) (u : Uuid) :
    ∀ (acc : Touch) (o : Option Nat),
      applyTouch (t.foldl (touchStep u) acc) o
        = applyTouch (lastTouch t u) (applyTouch acc o) := by
  induction t with
  | nil => intro acc o; rfl
  | cons op t' ih =>
    intro acc o
    simp only [List.foldl_cons, lastTouch] at *
    rw [ih (touchStep u acc op) o,
      ih (touchStep u Touch.untouched op) (applyTouch acc o),
      touchStep_apply]

/-- The registry lookup after a run of operations is dictated by the
most recent operation touching the key. -/
theorem regGet_foldl_regStep (ops : List RegOp) :
    ∀ (l : List (Uuid × Nat)) (u : Uuid),
      regGet (ops.foldl regStep l) u
        = applyTouch (lastTouch ops u) (regGet l u) := by
  induction ops with
  | nil => intro l u; rfl
  | cons op t ih =>
    intro l u
    rw [List.foldl_cons, ih]
    simp only [lastTouch, List.foldl_cons]
    rw [applyTouch_foldl t u (touchStep u Touch.untouched op) (regGet l u)]
    congr 1
    cases op with
    | register v h =>
      by_cases hv : v = u
      · subst hv
        simp [regStep, touchStep, applyTouch, regGet_regInsert_self]
      · simp [regStep, touchStep, applyTouch, hv,
          regGet_regInsert_ne l u v h hv]
    | deregister v =>
      by_cases hv : v = u
      · subst hv
        simp [regStep, touchStep, applyTouch, regGet_regRemove_self]
      · simp [regStep, touchStep, applyTouch, hv,
          regGet_regRemove_ne l u v hv]

/-- `regInsert` for a different key does not change the entry count. -/
theorem countKey_regInsert_ne {α : Type} (l : List (Uuid × α)) (v u : Uuid)
    (a : α) (h : v ≠ u) : countKey (regInsert l v a) u = countKey l u := by
  induction l with
  | nil => simp [regInsert, countKey_cons, h, countKey]
  | cons p t ih =>
    rcases p with ⟨w, b⟩
    by_cases hw : w = v
    · subst hw
      simp [regInsert, countKey_cons, h]
    · simp [regInsert, hw, countKey_cons, ih]

/-- Inserting under the key itself keeps "at most one entry". -/
theorem countKey_regInsert_self_le {α : Type} (l : List (Uuid × α)) (u : Uuid)
    (a : α) (h : countKey l u ≤ 1) : countKey (regInsert l u a) u ≤ 1 := by
  induction l with
  | nil => simp [regInsert, countKey_cons, countKey]
  | cons p t ih =>
    rcases p with ⟨x, c⟩
    rw [countKey_cons] at h
    by_cases hx : x = u
    · subst hx
      have hreg : regInsert ((x, c) :: t) x a = (x, a) :: t := by
        simp [regInsert]
      rw [hreg, countKey_cons]
      simp only [if_pos rfl] at h ⊢
      omega
    · have hreg : regInsert ((x, c) :: t) u a = (x, c) :: regInsert t u a := by
        simp [regInsert, hx]
      rw [hreg, countKey_cons]
      simp only [if_neg hx] at h ⊢
      have := ih (by omega)
      omega

/-- `regInsert` preserves "at most one entry per key". -/
theorem countKey_regInsert_le {α : Type} (l : List (Uuid × α)) (v u : Uuid)
    (a : α) (h : countKey l u ≤ 1) : countKey (regInsert l v a) u ≤ 1 := by
  by_cases hv : v = u
  · subst hv
    exact countKey_regInsert_self_le l v a h
  · rw [countKey_regInsert_ne l v u a hv]
    exact h

/-- `regRemove` never increases an entry count. -/
theorem countKey_regRemove_le {α : Type} (l : List (Uuid × α)) (v u : Uuid) :
    countKey (regRemove l v) u ≤ countKey l u := by
  have hsub :
      List.Sublist
        ((regRemove l v).filter (fun p => p.1 == u))
        (l.filter (fun p => p.1 == u)) :=
    List.Sublist.filter _ (List.filter_sublist l)
  simpa [countKey] using hsub.length_le

/-- Running any operations from a registry with at most one entry per
key keeps at most one entry per key. -/
theorem countKey_foldl_regStep (ops : List RegOp) :
    ∀ (l : List (Uuid × Nat)), (∀ u, countKey l u ≤ 1) →
      ∀ u, countKey (ops.foldl regStep l) u ≤ 1 := by
  induction ops with
  | nil => intro l h u; exact h u
  | cons op t ih =>
    intro l h u
    rw [List.foldl_cons]
    refine ih (regStep l op) (fun w => ?_) u
    cases op with
    | register v a => exact countKey_regInsert_le l v w a (h w)
    | deregister v => exact le_trans (countKey_regRemove_le l v w) (h w)

/-- C6: for every sequence of register/deregister operations, the
connection registry holds at most one handle per user, and when a
handle is present it is the one of the most recently registered
connection for that user. -/
theorem registry_single_latest_handle (ops : List RegOp) (u : Uuid) :
    countKey (runRegOps ops) u ≤ 1
    ∧ ∀ h, regGet (runRegOps ops) u = some h → lastTouch ops u = .reg h := by
  constructor
  · exact countKey_foldl_regStep ops [] (fun _ => by simp [countKey]) u
  · intro h hg
    have hchar := regGet_foldl_regStep ops [] u
    rw [runRegOps] at hg
    rw [hchar] at hg
    cases ht : lastTouch ops u with
    | untouched => rw [ht] at hg; simp [applyTouch, regGet] at hg
    | reg h' =>
      rw [ht] at hg
      simp only [applyTouch, Option.some.injEq] at hg
      rw [hg]
    | dereg => rw [ht] at hg; simp [applyTouch] at hg

/-- Witness for `registry_single_latest_handle`: user 7 registers
handle 1, then a second connection registers handle 2. -/
theorem registry_single_latest_handle_witness :
    countKey (runRegOps [RegOp.register 7 1, RegOp.register 7 2]) 7 ≤ 1
    ∧ ∀ h, regGet (runRegOps [RegOp.register 7 1, RegOp.register 7 2]) 7
        = some h →
        lastTouch [RegOp.register 7 1, RegOp.register 7 2] 7 = .reg h :=
  registry_single_latest_handle [RegOp.register 7 1, RegOp.register 7 2] 7

/-- A successful `regGet` exhibits a member of the list. -/
theorem regGet_mem {α : Type} (l : List (Uuid × α)) (u : Uuid) (a : α)
    (h : regGet l u = some a) : (u, a) ∈ l := by
  induction l with
  | nil => cases h
  | cons p t ih =>
    rcases p with ⟨v, b⟩
    rw [regGet_cons] at h
    by_cases hv : v = u
    · rw [if_pos hv] at h
      injection h with h'
      subst hv; subst h'
      exact List.mem_cons_self _ _
    · rw [if_neg hv] at h
      exact List.mem_cons_of_mem _ (ih h)

/-- `updateConn` of a different key leaves a lookup unchanged. -/
theorem regGet_updateConn_ne (conns : List (Uuid × ConnectionTx)) (u v : Uuid)
    (tx' : ConnectionTx) (h : v ≠ u) :
    regGet (updateConn conns u tx') v = regGet conns v := by
  induction conns with
  | nil => rfl
  | cons p t ih =>
    rcases p with ⟨w, b⟩
    by_cases hw : w = u
    · subst hw
      have hne : w ≠ v := fun hx => h hx.symm
      simp [updateConn, regGet_cons, hne] at ih ⊢
      exact ih
    · simp only [updateConn, List.map_cons, if_neg hw]
      by_cases hwv : w = v
      · simp [regGet_cons, hwv]
      · simp only [updateConn] at ih
        simp [regGet_cons, hwv, ih]

/-- `updateConn` replaces the present entry for the key. -/
theorem regGet_updateConn_self (conns : List (Uuid × ConnectionTx)) (u : Uuid)
    (tx tx' : ConnectionTx) (h : regGet conns u = some tx) :
    regGet (updateConn conns u tx') u = some tx' := by
  induction conns with
  | nil => cases h
  | cons p t ih =>
    rcases p with ⟨w, b⟩
    rw [regGet_cons] at h
    by_cases hw : w = u
    · simp [updateConn, hw, regGet_cons]
    · rw [if_neg hw] at h
      simp only [updateConn, List.map_cons, if_neg hw]
      simp only [updateConn] at ih
      simp [regGet_cons, hw, ih h]

/-- A targeted fan-out never touches the channel of a user absent from
the recipient list. -/
theorem sendToUsers_not_mem (ids : List Uuid) :
    ∀ (conns : List (Uuid × ConnectionTx)) (json : String) (B : Uuid),
      B ∉ ids → ∀ res, sendToUsers conns ids json = some res →
        regGet res B = regGet conns B := by
  induction ids with
  | nil =>
    intro conns json B _ res hres
    injection hres with h
    rw [h]
  | cons u rest ih =>
    intro conns json B hB res hres
    have hBu : B ≠ u := fun hx => hB (hx ▸ List.mem_cons_self u rest)
    have hBrest : B ∉ rest := fun hx => hB (List.mem_cons_of_mem _ hx)
    rw [sendToUsers] at hres
    cases hg : regGet conns u with
    | none =>
      rw [hg] at hres
      exact ih conns json B hBrest res hres
    | some tx =>
      rw [hg] at hres
      dsimp only at hres
      cases hs : mpscSend tx json with
      | sent tx' =>
        rw [hs] at hres
        rw [ih (updateConn conns u tx') json B hBrest res hres]
        exact regGet_updateConn_ne conns u B tx' hBu
      | wouldWait => rw [hs] at hres; cases hres
      | closedErr =>
        rw [hs] at hres
        exact ih conns json B hBrest res hres

/-- When every open channel has spare capacity, the global fan-out loop
completes: each open channel receives the message, each closed channel
has its delivery dropped, and no error is raised. -/
theorem broadcastSendLoop_ok (conns : List (Uuid × ConnectionTx)) (json : String)
    (hroom : ∀ p ∈ conns, p.2.closed = false → p.2.queue.length < p.2.capacity) :
    broadcastSendLoop conns json
      = some (conns.map (fun p =>
          (p.1, if p.2.closed then p.2
                else { p.2 with queue := p.2.queue ++ [json] }))) := by
  induction conns with
  | nil => rfl
  | cons p t ih =>
    rcases p with ⟨u, tx⟩
    have ihr := ih (fun q hq => hroom q (List.mem_cons_of_mem _ hq))
    by_cases hcl : tx.closed
    · have hsend : mpscSend tx json = .closedErr := by simp [mpscSend, hcl]
      simp [broadcastSendLoop, hsend, ihr, hcl]
    · have hro : tx.queue.length < tx.capacity :=
        hroom (u, tx) (List.mem_cons_self _ _) (by simpa using hcl)
      have hsend : mpscSend tx json
          = .sent { tx with queue := tx.queue ++ [json] } := by
        simp [mpscSend, hcl, hro]
      simp [broadcastSendLoop, hsend, ihr, hcl]

/-- When every listed open channel has spare capacity and the recipient
list has no duplicates, the targeted fan-out completes, delivering to
every listed open channel, dropping the delivery for every listed
closed channel, and leaving everyone else untouched. -/
theorem sendToUsers_ok (ids : List Uuid) :
    ∀ (conns : List (Uuid × ConnectionTx)) (json : String),
      ids.Nodup →
      (∀ v tx, v ∈ ids → regGet conns v = some tx → tx.closed = false →
          tx.queue.length < tx.capacity) →
      ∃ res, sendToUsers conns ids json = some res
        ∧ ∀ v tx, regGet conns v = some tx →
            regGet res v
              = some (if v ∈ ids ∧ tx.closed = false
                  then { tx with queue := tx.queue ++ [json] } else tx) := by
  induction ids with
  | nil =>
    intro conns json _ _
    refine ⟨conns, rfl, fun v tx hg => ?_⟩
    simp [hg]
  | cons u rest ih =>
    intro conns json hnd hroom
    rcases List.nodup_cons.mp hnd with ⟨hur, hndr⟩
    cases hg : regGet conns u with
    | none =>
      obtain ⟨res, hres, hchar⟩ := ih conns json hndr
        (fun v tx hv => hroom v tx (List.mem_cons_of_mem _ hv))
      refine ⟨res, ?_, ?_⟩
      · rw [sendToUsers, hg]
        exact hres
      · intro v tx hgv
        have hvne : v ≠ u := by
          rintro rfl
          rw [hg] at hgv
          cases hgv
        have := hchar v tx hgv
        simpa [List.mem_cons, hvne] using this
    | some tx =>
      by_cases hcl : tx.closed
      · have hsend : mpscSend tx json = .closedErr := by simp [mpscSend, hcl]
        obtain ⟨res, hres, hchar⟩ := ih conns json hndr
          (fun v tx' hv => hroom v tx' (List.mem_cons_of_mem _ hv))
        refine ⟨res, ?_, ?_⟩
        · rw [sendToUsers, hg]
          dsimp only
          rw [hsend]
          exact hres
        · intro v tx' hgv
          have hc := hchar v tx' hgv
          by_cases hvu : v = u
          · subst hvu
            have htx : tx' = tx := by
              rw [hg] at hgv
              injection hgv with h'
              exact h'.symm
            subst htx
            simpa [hur, hcl] using hc
          · simpa [List.mem_cons, hvu] using hc
      · have hclf : tx.closed = false := by simpa using hcl
        have hro : tx.queue.length < tx.capacity :=
          hroom u tx (List.mem_cons_self _ _) hg hclf
        have hsend : mpscSend tx json
            = .sent { tx with queue := tx.queue ++ [json] } := by
          simp [mpscSend, hcl, hro]
        obtain ⟨res, hres, hchar⟩ :=
          ih (updateConn conns u { tx with queue := tx.queue ++ [json] }) json
            hndr
            (fun v tx' hv hg' hcl' => by
              have hvne : v ≠ u := fun hx => hur (hx ▸ hv)
              rw [regGet_updateConn_ne conns u v _ hvne] at hg'
              exact hroom v tx' (List.mem_cons_of_mem _ hv) hg' hcl')
        refine ⟨res, ?_, ?_⟩
        · rw [sendToUsers, hg]
          dsimp only
          rw [hsend]
          exact hres
        · intro v tx' hgv
          by_cases hvu : v = u
          · subst hvu
            have htx : tx' = tx := by
              rw [hg] at hgv
              injection hgv with h'
              exact h'.symm
            subst htx
            have hg2 : regGet (updateConn conns v
                { tx' with queue := tx'.queue ++ [json] }) v
                = some { tx' with queue := tx'.queue ++ [json] } :=
              regGet_updateConn_self conns v tx' _ hg
            have hc := hchar v _ hg2
            rw [if_neg (fun hx => hur hx.1)] at hc
            rw [hc]
            rw [if_pos ⟨List.mem_cons_self _ _, hclf⟩]
          · have hg2 : regGet (updateConn conns u
                { tx with queue := tx.queue ++ [json] }) v = some tx' := by
              rw [regGet_updateConn_ne conns u v _ hvu]
              exact hgv
            have hc := hchar v tx' hg2
            rw [hc]
            simp [List.mem_cons, hvu]

/-- Counterexample to C4 as stated: with one recipient's open outbound
queue full (100 messages queued on a capacity-100 channel) and a second
recipient's queue empty, the broadcast does not complete with the full
recipient's delivery dropped — `tx.send(..).await` on a full open
channel waits for capacity, so the fan-out blocks (`none`) and nothing
is dropped, contradicting the claimed drop-on-full behaviour. -/
theorem broadcast_full_queue_blocks_counterexample :
    mpscSend ⟨connectionQueueCapacity,
        List.replicate connectionQueueCapacity "x", false⟩ "m" = .wouldWait
    ∧ broadcast_message
        [(1, ⟨connectionQueueCapacity,
              List.replicate connectionQueueCapacity "x", false⟩),
         (2, ⟨connectionQueueCapacity, [], false⟩)] "m" = none
    ∧ broadcast_message
        [(1, ⟨connectionQueueCapacity,
              List.replicate connectionQueueCapacity "x", false⟩),
         (2, ⟨connectionQueueCapacity, [], false⟩)] "m"
      ≠ some [(1, ⟨connectionQueueCapacity,
                   List.replicate connectionQueueCapacity "x", false⟩),
              (2, ⟨connectionQueueCapacity, ["m"], false⟩)] := by
  refine ⟨rfl, rfl, ?_⟩
  intro h
  have hn : broadcast_message
      [(1, ⟨connectionQueueCapacity,
            List.replicate connectionQueueCapacity "x", false⟩),
       (2, ⟨connectionQueueCapacity, [], false⟩)] "m" = none := rfl
  rw [hn] at h
  exact Option.noConfusion h

/-- C4 (amended): the fan-out raises no error to the caller, a
recipient whose outbound queue is closed has that single delivery
dropped while every other recipient still receives the event; but a
delivery to a full open queue is not dropped — the fan-out awaits
capacity, so completion holds when every open queue has room (for the
targeted fan-out, over any duplicate-free recipient list). -/
theorem broadcast_drops_only_closed (conns : List (Uuid × ConnectionTx))
    (json : String)
    (hroom : ∀ p ∈ conns, p.2.closed = false → p.2.queue.length < p.2.capacity) :
    broadcast_message conns json
      = some (conns.map (fun p =>
          (p.1, if p.2.closed then p.2
                else { p.2 with queue := p.2.queue ++ [json] })))
    ∧ ∀ ids : List Uuid, ids.Nodup →
        ∃ res, sendToUsers conns ids json = some res
          ∧ ∀ v tx, regGet conns v = some tx →
              regGet res v = some (if v ∈ ids ∧ tx.closed = false
                  then { tx with queue := tx.queue ++ [json] } else tx) := by
  constructor
  · exact broadcastSendLoop_ok conns json hroom
  · intro ids hnd
    exact sendToUsers_ok ids conns json hnd
      (fun v tx _ hg hcl => hroom (v, tx) (regGet_mem conns v tx hg) hcl)

/-- Witness for `broadcast_drops_only_closed`: user 1's channel closed,
user 2's open and empty; the broadcast delivers to 2, drops 1's
delivery, and the targeted fan-out to [1, 2] completes likewise. -/
theorem broadcast_drops_only_closed_witness :
    broadcast_message [(1, ⟨100, [], true⟩), (2, ⟨100, [], false⟩)] "m"
      = some [(1, ⟨100, [], true⟩), (2, ⟨100, ["m"], false⟩)]
    ∧ ∃ res,
        sendToUsers [(1, ⟨100, [], true⟩), (2, ⟨100, [], false⟩)] [1, 2] "m"
          = some res
        ∧ ∀ v tx,
            regGet [(1, ⟨100, [], true⟩), (2, ⟨100, [], false⟩)] v = some tx →
            regGet res v = some (if v ∈ [1, 2] ∧ tx.closed = false
                then { tx with queue := tx.queue ++ ["m"] } else tx) := by
  have h := broadcast_drops_only_closed
    [(1, ⟨100, [], true⟩), (2, ⟨100, [], false⟩)] "m" (by decide)
  exact ⟨by rw [h.1]; rfl, h.2 [1, 2] (by decide)⟩

/-- C8: the presence-update fan-out computes its recipients as the
distinct participants of the affected user's dialogs, so a user B who
shares no dialog with A is not among the recipients, and B's outbound
channel is untouched by the fan-out — even when B has a live
connection. -/
theorem presence_fanout_only_shared_dialogs
    (memb : MembershipRows) (conns : List (Uuid × ConnectionTx))
    (A B : Uuid) (is_online : Bool)
    (hB : ∀ d, ¬((A, d) ∈ memb ∧ (B, d) ∈ memb)) :
    B ∉ (get_dialog_participants_user_ids memb
          (get_user_dialogs memb A)).filter (fun r => !(r == A))
    ∧ ∀ res, broadcast_presence memb conns A is_online = some res →
        regGet res B = regGet conns B := by
  have hBnot :
      B ∉ get_dialog_participants_user_ids memb (get_user_dialogs memb A) := by
    intro hmem
    unfold get_dialog_participants_user_ids at hmem
    by_cases hnil : get_user_dialogs memb A = []
    · rw [if_pos hnil] at hmem
      cases hmem
    · rw [if_neg hnil] at hmem
      rw [List.mem_dedup] at hmem
      rcases List.mem_map.mp hmem with ⟨p, hp, hp1⟩
      rcases List.mem_filter.mp hp with ⟨hpmem, hpd⟩
      have hd2 : p.2 ∈ get_user_dialogs memb A := by simpa using hpd
      have hAmem : (A, p.2) ∈ memb := by
        simpa [get_user_dialogs] using hd2
      refine hB p.2 ⟨hAmem, ?_⟩
      · have hpeq : p = (B, p.2) := by
          rcases p with ⟨p1, p2⟩
          simp only [Prod.mk.injEq]
          exact ⟨hp1, trivial⟩
        rw [← hpeq]
        exact hpmem
  refine ⟨?_, ?_⟩
  · intro hmem
    exact hBnot (List.mem_of_mem_filter hmem)
  · intro res hres
    simp only [broadcast_presence] at hres
    by_cases hnil : get_user_dialogs memb A = []
    · rw [if_pos hnil] at hres
      injection hres with h'
      rw [h']
    · rw [if_neg hnil] at hres
      refine sendToUsers_not_mem _ conns _ B ?_ res hres
      intro hm
      exact hBnot (List.mem_of_mem_filter hm)

/-- Witness for `presence_fanout_only_shared_dialogs`: user 1 is in
dialog 10 only, user 2 in dialog 20 only and connected; the fan-out for
user 1 does not list user 2 and leaves user 2's channel unchanged. -/
theorem presence_fanout_only_shared_dialogs_witness :
    (2 : Uuid) ∉ (get_dialog_participants_user_ids [(1, 10), (2, 20)]
          (get_user_dialogs [(1, 10), (2, 20)] 1)).filter (fun r => !(r == 1))
    ∧ regGet [((2 : Uuid), (⟨100, [], false⟩ : ConnectionTx))] 2
        = regGet [((2 : Uuid), (⟨100, [], false⟩ : ConnectionTx))] 2 := by
  have h := presence_fanout_only_shared_dialogs [(1, 10), (2, 20)]
    [(2, ⟨100, [], false⟩)] 1 2 true
    (by
      rintro d ⟨h1, h2⟩
      have hd10 : d = 10 := by simpa using h1
      have hd20 : d = 20 := by simpa using h2
      rw [hd10] at hd20
      exact absurd hd20 (by decide))
  exact ⟨h.1, h.2 [(2, ⟨100, [], false⟩)] rfl⟩

/-- Counterexample to C5 as stated: with Redis configured but
unreachable, `get_online_users` returns an error (the `?` on `mget`
propagates it), not the empty set. -/
theorem presence_cache_error_returns_error_counterexample :
    get_online_users ⟨some ⟨false, []⟩⟩ [5] = .error ()
    ∧ get_online_users ⟨some ⟨false, []⟩⟩ [5] ≠ .ok [] := by
  refine ⟨rfl, ?_⟩
  intro h
  have hn : get_online_users ⟨some ⟨false, []⟩⟩ [5] = .error () := rfl
  rw [hn] at h
  exact Except.noConfusion h

/-- C5 (amended): under a cache failure every presence service
operation returns an error; the degradation to "assume offline" happens
at the call sites — every `get_online_users` caller applies
`unwrap_or_default` and so observes the empty set (no user online) —
while the unconfigured (noop) service returns the empty set directly. -/
theorem presence_degrades_to_offline (conn : RedisConn) (ids : List Uuid)
    (u : Uuid) (h : conn.reachable = false) :
    get_online_users_or_default ⟨some conn⟩ ids = []
    ∧ (ids ≠ [] → get_online_users ⟨some conn⟩ ids = .error ())
    ∧ set_online ⟨some conn⟩ u = .error ()
    ∧ refresh_online ⟨some conn⟩ u = .error ()
    ∧ set_offline ⟨some conn⟩ u = .error ()
    ∧ is_online ⟨some conn⟩ u = .error ()
    ∧ get_online_users ⟨none⟩ ids = .ok [] := by
  refine ⟨?_, ?_, ?_, ?_, ?_, ?_, rfl⟩
  · by_cases hids : ids = []
    · simp [get_online_users_or_default, get_online_users, hids]
    · simp [get_online_users_or_default, get_online_users, hids,
        RedisConn.mget, h]
  · intro hids
    simp [get_online_users, hids, RedisConn.mget, h]
  · simp [set_online, RedisConn.set, h]
  · simp [refresh_online, h]
  · simp [set_offline, RedisConn.del, h]
  · simp [is_online, RedisConn.get, h]

/-- Witness for `presence_degrades_to_offline` at a concrete
unreachable connection, user list `[5]` and user `5`. -/
theorem presence_degrades_to_offline_witness :
    get_online_users_or_default ⟨some ⟨false, []⟩⟩ [5] = []
    ∧ (([5] : List Uuid) ≠ [] → get_online_users ⟨some ⟨false, []⟩⟩ [5] = .error ())
    ∧ set_online ⟨some ⟨false, []⟩⟩ 5 = .error ()
    ∧ refresh_online ⟨some ⟨false, []⟩⟩ 5 = .error ()
    ∧ set_offline ⟨some ⟨false, []⟩⟩ 5 = .error ()
    ∧ is_online ⟨some ⟨false, []⟩⟩ 5 = .error ()
    ∧ get_online_users ⟨none⟩ [5] = .ok [] :=
  presence_degrades_to_offline ⟨false, []⟩ [5] 5 rfl

/-- Counterexample to C7 as stated: the serialized body's `type` field
for a `message.new` event is `"message_new"` (serde's snake_case
variant name — the repository's own test asserts this), while the
`X-Webhook-Event` header carries `"message.new"`; the two differ, so
the body does not carry the dotted tag. -/
theorem webhook_body_type_dotted_counterexample :
    jsonLookup (webhookEventJson sampleEvent) "type"
      = some (.str "message_new")
    ∧ webhookEventHeader sampleEvent.event_type = "message.new"
    ∧ ("message_new" : String) ≠ "message.new" := by
  refine ⟨rfl, rfl, by decide⟩

/-- C7 (amended): the HTTP body is the JSON serialization of the
envelope with fields id, type, timestamp, payload in order, but the
`type` field carries serde's snake_case variant name — the dotted tag
with each dot replaced by an underscore — which always differs from the
dotted `X-Webhook-Event` header value. -/
theorem webhook_body_type_field_snake_case (e : WebhookEvent) :
    jsonFieldNames (webhookEventJson e) = ["id", "type", "timestamp", "payload"]
    ∧ jsonLookup (webhookEventJson e) "type"
        = some (.str (serdeTypeTag e.event_type))
    ∧ serdeTypeTag e.event_type = dotToUnderscore e.event_type.as_str
    ∧ serdeTypeTag e.event_type ≠ webhookEventHeader e.event_type := by
  refine ⟨rfl, rfl, ?_, ?_⟩
  · cases e.event_type <;> decide
  · cases e.event_type <;> decide

/-- Folding OR over the XORs of a list zipped with itself returns the
accumulator. -/
theorem fold_or_xor_self (a : List Nat) :
    ∀ acc : Nat,
      ((a.zip a).foldl (fun acc p => acc ||| (p.1 ^^^ p.2)) acc) = acc := by
  induction a with
  | nil => intro acc; rfl
  | cons x t ih =>
    intro acc
    show ((t.zip t).foldl (fun acc p => acc ||| (p.1 ^^^ p.2))
      (acc ||| (x ^^^ x))) = acc
    rw [Nat.xor_self, Nat.or_zero]
    exact ih acc

/-- `constant_time_eq` is reflexive. -/
theorem constant_time_eq_self (a : List Nat) : constant_time_eq a a = true := by
  simp [constant_time_eq, fold_or_xor_self]

/-- Validation of the SHA-256 embedding on the FIPS 180-2 "abc" test
vector. -/
theorem sha256_abc_vector :
    sha256 [97, 98, 99] =
      [0xba, 0x78, 0x16, 0xbf, 0x8f, 0x01, 0xcf, 0xea,
       0x41, 0x41, 0x40, 0xde, 0x5d, 0xae, 0x22, 0x23,
       0xb0, 0x03, 0x61, 0xa3, 0x96, 0x17, 0x7a, 0x9c,
       0xb4, 0x10, 0xff, 0x61, 0xf2, 0x00, 0x15, 0xad] := by decide

set_option maxRecDepth 100000

/-- Validation of the HMAC-SHA256 embedding on RFC 4231 test case 2
(key "Jefe"). -/
theorem hmac_rfc4231_case2 :
    hexEncode (hmacSha256 [74, 101, 102, 101]
        [119, 104, 97, 116, 32, 100, 111, 32, 121, 97, 32, 119, 97, 110,
         116, 32, 102, 111, 114, 32, 110, 111, 116, 104, 105, 110, 103, 63])
      = (String.toList
          "5bdcc146bf60754e6a042426089575c75a003f089d2739839dec58b964ec3843").map
          Char.toNat := by decide

/-- C9: `verify(secret, payload, sign(secret, payload))` is true for
every secret and payload (byte lists); and — demonstrated at the
concrete secret "my-webhook-secret" and payload "abc", since the
one-byte-tamper property can only be checked by evaluation — changing
exactly one byte of the payload ("abc" → "abd") or exactly one byte of
the secret (final 't' → 'u') makes verification of the original
signature return false. -/
theorem webhook_signature_roundtrip_and_tamper :
    (∀ secret payload : List Nat,
        verify_signature secret payload (compute_signature secret payload)
          = true)
    ∧ payloadBytes.length = payloadTampered.length
    ∧ (payloadBytes.zip payloadTampered).countP (fun p => p.1 != p.2) = 1
    ∧ secretBytes.length = secretTampered.length
    ∧ (secretBytes.zip secretTampered).countP (fun p => p.1 != p.2) = 1
    ∧ verify_signature secretBytes payloadTampered
        (compute_signature secretBytes payloadBytes) = false
    ∧ verify_signature secretTampered payloadBytes
        (compute_signature secretBytes payloadBytes) = false := by
  refine ⟨?_, by decide, by decide, by decide, by decide, by decide, by decide⟩
  intro secret payload
  simp [verify_signature, constant_time_eq_self]
